import Mathlib

/-!
Shallow embedding of the snow-forecast scraper (files `SnowForecast.py`,
`snow-forecast.py`, `forecast-elastic.py`).

HTML pages are modelled after parsing: a BeautifulSoup `find` that can miss
becomes an `Option`, a `find_all` becomes the list of the matched elements,
and each element is reduced to the attributes and text the code reads.
bs4 `Tag` objects are always truthy, so the Python truthiness tests on rows
correspond exactly to `Option.isSome`; attribute strings keep Python string
truthiness (empty string is falsy).
-/

/-- One `td.forecast-table-days__cell` of the days header row:
its `data-date` attribute (`None` when absent) and its `colspan`
attribute already parsed to a number (the code runs
`int(day_cell.get('colspan', 1))`, so a missing attribute means `1`). -/
structure DayCell where
  date : Option String
  colspan : Nat
deriving Repr, DecidableEq

/-- The parsed `table.forecast-table__table`: each `find` of a row yields
`none` when the row is absent, otherwise the list of the cells the code
reads from it (for the time row, the `td.forecast-table__cell` texts; for
the measurement rows, all `td` texts, stripped). -/
structure ForecastTable where
  daysRow : Option (List DayCell)
  timeRow : Option (List String)
  snowRow : Option (List String)
  freezingLevelRow : Option (List String)
  humidityRow : Option (List String)
  windRow : Option (List String)
deriving Repr, DecidableEq

/-- One element of the list returned by `forecast_for_resort`
(the Python dict with keys date/time/snow/freezing_level/humidity/wind;
`ForecastData` in `snow-forecast.py`). -/
structure ForecastPeriod where
  date : Option String
  time : String
  snow : Option String
  freezing_level : Option String
  humidity : Option String
  wind : Option String
deriving Repr, DecidableEq

/-- The date sequence: for each day cell in document order, append its
`data-date` value `colspan` times (`dates.extend([date_text] * colspan)`). -/
def buildDates (dayCells : List DayCell) : List (Option String) :=
  dayCells.foldl (fun acc c => acc ++ List.replicate c.colspan c.date) []

/-- `snow_data = ['0' if cm == '—' else cm for cm in snow_data]`. -/
def cleanSnow (snow : List String) : List String :=
  snow.map (fun cm => if cm = "—" then "0" else cm)

/-- Body of `SnowForecast.forecast_for_resort` once the table was found:
dates and times are populated only when BOTH the days row and the time row
are present (`if days_row and time_row:`); each measurement row falls back
to `[]` when absent; the em-dash cleanup is applied to the snow row only;
one record per time slot, with positional lookups past a list's end
yielding `None`. -/
def extractForecast (t : ForecastTable) : List ForecastPeriod :=
  let dt : List (Option String) × List String :=
    match t.daysRow, t.timeRow with
    | some dayCells, some timeCells => (buildDates dayCells, timeCells)
    | _, _ => ([], [])
  let dates := dt.1
  let times := dt.2
  let snow_data := cleanSnow (t.snowRow.getD [])
  let freezing_level_data := t.freezingLevelRow.getD []
  let humidity_data := t.humidityRow.getD []
  let wind_data := t.windRow.getD []
  (List.range times.length).map (fun i =>
    { date := (dates[i]?).getD none
      time := times.getD i ""
      snow := snow_data[i]?
      freezing_level := freezing_level_data[i]?
      humidity := humidity_data[i]?
      wind := wind_data[i]? })

/-- `SnowForecast.forecast_for_resort`: `None` when the forecast table is
missing from the page, otherwise the extracted list. -/
def forecast_for_resort (page : Option ForecastTable) : Option (List ForecastPeriod) :=
  page.map extractForecast

/-- Sanity evaluation of the extractor on a small concrete table. -/
theorem extractForecast_sample :
    extractForecast ⟨some [⟨some "d1", 2⟩, ⟨some "d2", 1⟩], some ["AM", "PM", "night"],
      some ["—", "2"], none, none, none⟩ =
    [⟨some "d1", "AM", some "0", none, none, none⟩,
     ⟨some "d1", "PM", some "2", none, none, none⟩,
     ⟨some "d2", "night", none, none, none, none⟩] := by decide

theorem foldl_append_acc {α β : Type} (f : β → List α) (l : List β) :
    ∀ acc : List α, l.foldl (fun a b => a ++ f b) acc = acc ++ l.foldl (fun a b => a ++ f b) [] := by
  induction l with
  | nil => intro acc; simp
  | cons b t ih =>
    intro acc
    simp only [List.foldl_cons]
    rw [ih (acc ++ f b), List.nil_append, ih (f b), List.append_assoc]

theorem buildDates_cons (c : DayCell) (cs : List DayCell) :
    buildDates (c :: cs) = List.replicate c.colspan c.date ++ buildDates cs := by
  unfold buildDates
  simp only [List.foldl_cons, List.nil_append]
  exact foldl_append_acc _ cs _

theorem extractForecast_of_rows (t : ForecastTable) (dr : List DayCell) (tr : List String)
    (hd : t.daysRow = some dr) (ht : t.timeRow = some tr) :
    extractForecast t = (List.range tr.length).map (fun i =>
      { date := ((buildDates dr)[i]?).getD none
        time := tr.getD i ""
        snow := (cleanSnow (t.snowRow.getD []))[i]?
        freezing_level := (t.freezingLevelRow.getD [])[i]?
        humidity := (t.humidityRow.getD [])[i]?
        wind := (t.windRow.getD [])[i]? }) := by
  unfold extractForecast
  rw [hd, ht]

theorem extractForecast_length (t : ForecastTable) (dr : List DayCell) (tr : List String)
    (hd : t.daysRow = some dr) (ht : t.timeRow = some tr) :
    (extractForecast t).length = tr.length := by
  rw [extractForecast_of_rows t dr tr hd ht]
  simp

/-- C1, as stated, is false: the claim asks for `N` periods whenever the
time row has `N` cells, regardless of the days row's presence, but the
code fills `times` only under `if days_row and time_row:`, so a table with
a one-cell time row and no days row yields zero periods. -/
theorem C1_counterexample :
    ¬ ∀ (t : ForecastTable) (tr : List String), t.timeRow = some tr →
      ∃ l, forecast_for_resort (some t) = some l ∧ l.length = tr.length := by
  intro h
  obtain ⟨l, hl, hlen⟩ := h ⟨none, some ["AM"], none, none, none, none⟩ ["AM"] rfl
  have h0 : forecast_for_resort (some ⟨none, some ["AM"], none, none, none, none⟩) =
      some [] := by decide
  rw [h0] at hl
  obtain rfl : ([] : List ForecastPeriod) = l := Option.some.inj hl
  simp at hlen

/-- C1 (amended): for every parsed forecast page whose forecast table
contains BOTH a days row and a time row with `N` time-slot cells,
`forecast_for_resort` returns exactly `N` periods, in table column order,
regardless of the length of the days row and of the presence or length of
any measurement row; trailing periods past the end of the date sequence
get a null date. (The amendment: the days row must also be present — when
it is absent the code returns zero periods, see the counterexample.) -/
theorem C1_amended_period_count (t : ForecastTable) (dr : List DayCell) (tr : List String)
    (hd : t.daysRow = some dr) (ht : t.timeRow = some tr) :
    ∃ l, forecast_for_resort (some t) = some l ∧ l.length = tr.length ∧
      l.map ForecastPeriod.time = tr ∧
      ∀ i : Nat, (buildDates dr).length ≤ i →
        ∀ h : i < l.length, (l.get ⟨i, h⟩).date = none := by
  refine ⟨extractForecast t, rfl, extractForecast_length t dr tr hd ht, ?_, ?_⟩
  · rw [extractForecast_of_rows t dr tr hd ht]
    apply List.ext_getElem
    · simp
    · intro i h1 h2
      simp only [List.getElem_map, List.getElem_range]
      exact List.getD_eq_getElem tr "" h2
  · intro i hge h
    have hlt : i < tr.length := by
      have := extractForecast_length t dr tr hd ht
      omega
    have hval : (extractForecast t)[i]? =
        some { date := ((buildDates dr)[i]?).getD none
               time := tr.getD i ""
               snow := (cleanSnow (t.snowRow.getD []))[i]?
               freezing_level := (t.freezingLevelRow.getD [])[i]?
               humidity := (t.humidityRow.getD [])[i]?
               wind := (t.windRow.getD [])[i]? } := by
      rw [extractForecast_of_rows t dr tr hd ht, List.getElem?_map, List.getElem?_range hlt]
      rfl
    have hget : (extractForecast t)[i]? = some ((extractForecast t).get ⟨i, h⟩) :=
      List.getElem?_eq_getElem h
    rw [hget] at hval
    have hp := Option.some.inj hval
    rw [hp]
    simp [List.getElem?_eq_none hge]

theorem C1_amended_period_count_witness :
    ∃ l, forecast_for_resort
        (some ⟨some [⟨some "d", 1⟩], some ["AM", "PM"], none, none, none, none⟩) = some l ∧
      l.length = (["AM", "PM"] : List String).length ∧
      l.map ForecastPeriod.time = ["AM", "PM"] ∧
      ∀ i : Nat, (buildDates [⟨some "d", 1⟩]).length ≤ i →
        ∀ h : i < l.length, (l.get ⟨i, h⟩).date = none :=
  C1_amended_period_count _ [⟨some "d", 1⟩] ["AM", "PM"] rfl rfl

/-- C2: the date sequence is built by iterating the day cells in document
order, appending each cell's `data-date` value `colspan` times; in
particular a days header `[(d1, span 2), (d2, span 1)]` with a 3-cell time
row yields dates `[d1, d1, d2]` aligned 1:1 with the three time slots,
whatever the measurement rows hold. -/
theorem C2_date_broadcasting (d1 d2 t1 t2 t3 : String)
    (sr fr hr wr : Option (List String)) :
    (∀ (c : DayCell) (cs : List DayCell),
      buildDates (c :: cs) = List.replicate c.colspan c.date ++ buildDates cs) ∧
    buildDates [⟨some d1, 2⟩, ⟨some d2, 1⟩] = [some d1, some d1, some d2] ∧
    (extractForecast ⟨some [⟨some d1, 2⟩, ⟨some d2, 1⟩], some [t1, t2, t3], sr, fr, hr, wr⟩).map
      (fun p => (p.date, p.time)) = [(some d1, t1), (some d1, t2), (some d2, t3)] := by
  refine ⟨fun c cs => buildDates_cons c cs, by rw [buildDates_cons, buildDates_cons]; rfl, ?_⟩
  rw [extractForecast_of_rows _ [⟨some d1, 2⟩, ⟨some d2, 1⟩] [t1, t2, t3] rfl rfl]
  rfl

/-- The time slots actually used: populated only when both header rows
are present. -/
def timesOf (t : ForecastTable) : List String :=
  match t.daysRow, t.timeRow with
  | some _, some timeCells => timeCells
  | _, _ => []

/-- The date sequence actually used: populated only when both header rows
are present. -/
def datesOf (t : ForecastTable) : List (Option String) :=
  match t.daysRow, t.timeRow with
  | some dayCells, some _ => buildDates dayCells
  | _, _ => []

theorem extractForecast_eq (t : ForecastTable) :
    extractForecast t = (List.range (timesOf t).length).map (fun i =>
      { date := ((datesOf t)[i]?).getD none
        time := (timesOf t).getD i ""
        snow := (cleanSnow (t.snowRow.getD []))[i]?
        freezing_level := (t.freezingLevelRow.getD [])[i]?
        humidity := (t.humidityRow.getD [])[i]?
        wind := (t.windRow.getD [])[i]? }) := by
  unfold extractForecast timesOf datesOf
  rcases t with ⟨d, tr, s, f, h, w⟩
  cases d <;> cases tr <;> rfl

theorem extractForecast_getElem (t : ForecastTable) (dr : List DayCell) (tr : List String)
    (i : Nat) (hd : t.daysRow = some dr) (ht : t.timeRow = some tr) (hi : i < tr.length) :
    (extractForecast t)[i]? =
      some { date := ((buildDates dr)[i]?).getD none
             time := tr.getD i ""
             snow := (cleanSnow (t.snowRow.getD []))[i]?
             freezing_level := (t.freezingLevelRow.getD [])[i]?
             humidity := (t.humidityRow.getD [])[i]?
             wind := (t.windRow.getD [])[i]? } := by
  rw [extractForecast_of_rows t dr tr hd ht, List.getElem?_map, List.getElem?_range hi]
  rfl

/-- C3: the em-dash placeholder is normalized to `"0"` in the snow column
only; the freezing-level, humidity and wind cell texts are passed through
unchanged, even when they hold the same glyph. -/
theorem C3_emdash_snow_only (t : ForecastTable) (dr : List DayCell) (tr : List String)
    (i : Nat) (hd : t.daysRow = some dr) (ht : t.timeRow = some tr) (hi : i < tr.length) :
    ∃ p, (extractForecast t)[i]? = some p ∧
      p.snow = ((t.snowRow.getD [])[i]?).map (fun c => if c = "—" then "0" else c) ∧
      p.freezing_level = (t.freezingLevelRow.getD [])[i]? ∧
      p.humidity = (t.humidityRow.getD [])[i]? ∧
      p.wind = (t.windRow.getD [])[i]? := by
  refine ⟨_, extractForecast_getElem t dr tr i hd ht hi, ?_, rfl, rfl, rfl⟩
  show (cleanSnow (t.snowRow.getD []))[i]? = _
  unfold cleanSnow
  rw [List.getElem?_map]

theorem C3_emdash_snow_only_witness :
    ∃ p, (extractForecast
        ⟨some [⟨some "d", 1⟩], some ["AM"], some ["—"], some ["—"], some ["—"], some ["—"]⟩)[0]? =
        some p ∧
      p.snow = (((some ["—"] : Option (List String)).getD [])[0]?).map
        (fun c => if c = "—" then "0" else c) ∧
      p.freezing_level = ((some ["—"] : Option (List String)).getD [])[0]? ∧
      p.humidity = ((some ["—"] : Option (List String)).getD [])[0]? ∧
      p.wind = ((some ["—"] : Option (List String)).getD [])[0]? :=
  C3_emdash_snow_only _ [⟨some "d", 1⟩] ["AM"] 0 rfl rfl (by decide)

/-- C4: a missing measurement row degrades gracefully: dropping one row
nulls exactly that measurement field in every period and leaves every
other field of every period unchanged; and a measurement row shorter than
the period count yields nulls for exactly the missing tail positions
(stated for the wind row, the row the claim instantiates). -/
theorem C4_missing_measurement_row (t : ForecastTable) (dr : List DayCell) (tr : List String)
    (w : List String) (hd : t.daysRow = some dr) (ht : t.timeRow = some tr)
    (hw : t.windRow = some w) :
    (extractForecast { t with snowRow := none } =
      (extractForecast t).map (fun p => { p with snow := none })) ∧
    (extractForecast { t with freezingLevelRow := none } =
      (extractForecast t).map (fun p => { p with freezing_level := none })) ∧
    (extractForecast { t with humidityRow := none } =
      (extractForecast t).map (fun p => { p with humidity := none })) ∧
    (extractForecast { t with windRow := none } =
      (extractForecast t).map (fun p => { p with wind := none })) ∧
    (∀ i : Nat, w.length ≤ i → ∀ h : i < (extractForecast t).length,
      ((extractForecast t).get ⟨i, h⟩).wind = none) := by
  refine ⟨?_, ?_, ?_, ?_, ?_⟩
  · rw [extractForecast_eq { t with snowRow := none }, extractForecast_eq t, List.map_map]
    exact List.map_congr_left (fun i _ => rfl)
  · rw [extractForecast_eq { t with freezingLevelRow := none }, extractForecast_eq t,
      List.map_map]
    exact List.map_congr_left (fun i _ => rfl)
  · rw [extractForecast_eq { t with humidityRow := none }, extractForecast_eq t, List.map_map]
    exact List.map_congr_left (fun i _ => rfl)
  · rw [extractForecast_eq { t with windRow := none }, extractForecast_eq t, List.map_map]
    exact List.map_congr_left (fun i _ => rfl)
  · intro i hge h
    have hlt : i < tr.length := by
      have := extractForecast_length t dr tr hd ht
      omega
    have hval := extractForecast_getElem t dr tr i hd ht hlt
    have hget : (extractForecast t)[i]? = some ((extractForecast t).get ⟨i, h⟩) :=
      List.getElem?_eq_getElem h
    rw [hget] at hval
    have hp := Option.some.inj hval
    rw [hp]
    show (t.windRow.getD [])[i]? = none
    rw [hw]
    exact List.getElem?_eq_none (by simpa using hge)

theorem C4_missing_measurement_row_witness :
    (extractForecast { (⟨some [⟨some "d", 2⟩], some ["AM", "PM"], some ["1", "2"], none, none,
        some ["w1"]⟩ : ForecastTable) with snowRow := none } =
      (extractForecast ⟨some [⟨some "d", 2⟩], some ["AM", "PM"], some ["1", "2"], none, none,
        some ["w1"]⟩).map (fun p => { p with snow := none })) ∧
    (extractForecast { (⟨some [⟨some "d", 2⟩], some ["AM", "PM"], some ["1", "2"], none, none,
        some ["w1"]⟩ : ForecastTable) with freezingLevelRow := none } =
      (extractForecast ⟨some [⟨some "d", 2⟩], some ["AM", "PM"], some ["1", "2"], none, none,
        some ["w1"]⟩).map (fun p => { p with freezing_level := none })) ∧
    (extractForecast { (⟨some [⟨some "d", 2⟩], some ["AM", "PM"], some ["1", "2"], none, none,
        some ["w1"]⟩ : ForecastTable) with humidityRow := none } =
      (extractForecast ⟨some [⟨some "d", 2⟩], some ["AM", "PM"], some ["1", "2"], none, none,
        some ["w1"]⟩).map (fun p => { p with humidity := none })) ∧
    (extractForecast { (⟨some [⟨some "d", 2⟩], some ["AM", "PM"], some ["1", "2"], none, none,
        some ["w1"]⟩ : ForecastTable) with windRow := none } =
      (extractForecast ⟨some [⟨some "d", 2⟩], some ["AM", "PM"], some ["1", "2"], none, none,
        some ["w1"]⟩).map (fun p => { p with wind := none })) ∧
    (∀ i : Nat, (["w1"] : List String).length ≤ i →
      ∀ h : i < (extractForecast ⟨some [⟨some "d", 2⟩], some ["AM", "PM"], some ["1", "2"],
        none, none, some ["w1"]⟩).length,
      ((extractForecast ⟨some [⟨some "d", 2⟩], some ["AM", "PM"], some ["1", "2"], none, none,
        some ["w1"]⟩).get ⟨i, h⟩).wind = none) :=
  C4_missing_measurement_row _ [⟨some "d", 2⟩] ["AM", "PM"] ["w1"] rfl rfl rfl

/-- Python `str.lower()` on the ASCII range (resort and country names in
this code are ASCII; `Char.toLower` lowers exactly the ASCII uppercase
letters). -/
def pyLower (s : String) : String := ⟨s.data.map Char.toLower⟩

/-- Does the first list occur at the head of the second one? -/
def headMatch : List Char → List Char → Bool
  | [], _ => true
  | _ :: _, [] => false
  | a :: as, b :: bs => a == b && headMatch as bs

/-- Does the first list occur as a contiguous run inside the second? -/
def hasSub : List Char → List Char → Bool
  | needle, [] => needle.isEmpty
  | needle, b :: bs => headMatch needle (b :: bs) || hasSub needle bs

/-- Python's `needle in hay` on strings: contiguous substring
containment. -/
def pyIn (needle hay : String) : Bool := hasSub needle.data hay.data

/-- The `Resort` dataclass of `snow-forecast.py`. -/
structure Resort where
  name : String
  country : String
  url : String
  data_url : String
deriving Repr, DecidableEq

/-- Python dict lookup, with the dict modelled as its insertion-ordered
key/value list (keys unique). -/
def pyGet {α : Type} (m : List (String × α)) (k : String) : Option α :=
  (m.find? (fun p => p.1 == k)).map Prod.snd

/-- Concrete listing used to exercise the matcher. -/
def topResort : Resort := ⟨"Top Resort", "ch", "u1", "du1"⟩

/-- Concrete listing used to exercise the matcher. -/
def resortTop : Resort := ⟨"Resort Top", "ch", "u2", "du2"⟩

/-- Concrete one-country directory used to exercise the matcher. -/
def chAvail : List (String × List Resort) := [("ch", [topResort, resortTop])]

/-- `ResortRepository.get_matching_resort`: `None` when the country has no
fetched listing; otherwise the first exact case-folded name match, and only
when that pass finds nothing, the first listing whose case-folded name
contains the typed name as a substring. -/
def get_matching_resort (available_resorts : List (String × List Resort))
    (country resort_name : String) : Option Resort :=
  match pyGet available_resorts country with
  | none => none
  | some rs =>
    match rs.find? (fun resort => pyLower resort.name == pyLower resort_name) with
    | some resort => some resort
    | none => rs.find? (fun resort => pyIn (pyLower resort_name) (pyLower resort.name))

theorem get_matching_resort_mem (available : List (String × List Resort))
    (country resort_name : String) (r : Resort)
    (h : get_matching_resort available country resort_name = some r) :
    ∃ rs, pyGet available country = some rs ∧ r ∈ rs := by
  unfold get_matching_resort at h
  split at h
  · exact absurd h (by simp)
  · rename_i rs hg
    refine ⟨rs, hg, ?_⟩
    split at h
    · rename_i r0 hf
      obtain rfl : r0 = r := Option.some.inj h
      exact List.mem_of_find?_eq_some hf
    · exact List.mem_of_find?_eq_some h

/-- C5: the Matcher is two-pass and case-insensitive: with no fetched
listing for the country it returns the no-match value; otherwise pass 1
returns the first listing (in sequence order) whose case-folded name
equals the typed name, and only if pass 1 finds nothing does pass 2 return
the first listing whose case-folded name contains the typed name; with
available names `["Top Resort", "Resort Top"]` and typed name
`"Resort Top"`, the exact pass returns the `"Resort Top"` listing. -/
theorem C5_two_pass_matcher (available : List (String × List Resort))
    (country resort_name : String) :
    (pyGet available country = none →
      get_matching_resort available country resort_name = none) ∧
    (∀ rs r, pyGet available country = some rs →
      rs.find? (fun resort => pyLower resort.name == pyLower resort_name) = some r →
      get_matching_resort available country resort_name = some r) ∧
    (∀ rs, pyGet available country = some rs →
      rs.find? (fun resort => pyLower resort.name == pyLower resort_name) = none →
      get_matching_resort available country resort_name =
        rs.find? (fun resort => pyIn (pyLower resort_name) (pyLower resort.name))) ∧
    get_matching_resort chAvail "ch" "Resort Top" = some resortTop := by
  refine ⟨?_, ?_, ?_, ?_⟩
  · intro h; simp only [get_matching_resort, h]
  · intro rs r h1 h2; simp only [get_matching_resort, h1, h2]
  · intro rs h1 h2; simp only [get_matching_resort, h1, h2]
  · decide

theorem C5_two_pass_matcher_witness :
    (pyGet chAvail "fr" = none →
      get_matching_resort chAvail "fr" "Resort Top" = none) ∧
    (∀ rs r, pyGet chAvail "fr" = some rs →
      rs.find? (fun resort => pyLower resort.name == pyLower "Resort Top") = some r →
      get_matching_resort chAvail "fr" "Resort Top" = some r) ∧
    (∀ rs, pyGet chAvail "fr" = some rs →
      rs.find? (fun resort => pyLower resort.name == pyLower "Resort Top") = none →
      get_matching_resort chAvail "fr" "Resort Top" =
        rs.find? (fun resort => pyIn (pyLower "Resort Top") (pyLower resort.name))) ∧
    get_matching_resort chAvail "ch" "Resort Top" = some resortTop :=
  C5_two_pass_matcher chAvail "fr" "Resort Top"

/-- The keys of an association-list-modelled dict, in order. -/
def keysOf {α : Type} (m : List (String × α)) : List String := m.map Prod.fst

/-- Python `d[k] = v` on the dict model: when the key exists its value is
replaced in place, else the pair is appended (insertion order kept). -/
def pyDictSet {α : Type} (m : List (String × α)) (k : String) (v : α) :
    List (String × α) :=
  if m.any (fun p => p.1 == k) then
    m.map (fun p => if p.1 == k then (k, v) else p)
  else m ++ [(k, v)]

theorem keysOf_pyDictSet_mem {α : Type} (m : List (String × α)) (k : String) (v : α)
    (x : String) (hx : x ∈ keysOf (pyDictSet m k v)) : x ∈ keysOf m ∨ x = k := by
  unfold pyDictSet at hx
  split at hx
  · unfold keysOf at hx ⊢
    rw [List.map_map] at hx
    obtain ⟨p, hp, hpx⟩ := List.mem_map.mp hx
    by_cases hk : (p.1 == k) = true
    · right
      simp only [Function.comp, hk, if_pos] at hpx
      exact hpx.symm
    · left
      simp only [Function.comp, hk] at hpx
      rw [if_neg (by simp [hk])] at hpx
      exact hpx ▸ List.mem_map_of_mem Prod.fst hp
  · unfold keysOf at hx ⊢
    rw [List.map_append] at hx
    rcases List.mem_append.mp hx with h | h
    · exact .inl h
    · right
      simpa using h

theorem keysOf_pyDictSet_nodup {α : Type} (m : List (String × α)) (k : String) (v : α)
    (h : (keysOf m).Nodup) : (keysOf (pyDictSet m k v)).Nodup := by
  unfold pyDictSet
  split
  · unfold keysOf at h ⊢
    rw [List.map_map]
    have : (Prod.fst ∘ fun p : String × α => if p.1 == k then (k, v) else p) = Prod.fst := by
      funext p
      by_cases hk : (p.1 == k) = true
      · simp only [Function.comp, hk, if_pos]
        exact (eq_of_beq hk).symm
      · simp only [Function.comp, hk]
        rw [if_neg (by simp [hk])]
    rw [this]
    exact h
  · rename_i hany
    unfold keysOf at h ⊢
    rw [List.map_append, List.nodup_append]
    refine ⟨h, by simp, ?_⟩
    intro x hx hx1
    have hxk : x = k := by simpa using hx1
    obtain ⟨p, hp, hpx⟩ := List.mem_map.mp hx
    have hpk : (p.1 == k) = true := by rw [hpx, hxk]; exact beq_self_eq_true k
    have hc : m.any (fun p => p.1 == k) = true := List.any_eq_true.mpr ⟨p, hp, hpk⟩
    simp [hc] at hany

theorem find?_update {α : Type} (m : List (String × α)) (k : String) (v : α) :
    (m.map (fun p => if p.1 == k then (k, v) else p)).find? (fun p => p.1 == k) =
      (m.find? (fun p => p.1 == k)).map (fun _ => (k, v)) := by
  induction m with
  | nil => rfl
  | cons p t ih =>
    by_cases hp : (p.1 == k) = true
    · have h1 : (if p.1 == k then (k, v) else p) = (k, v) := if_pos hp
      have hr : List.find? (fun q => q.1 == k) (p :: t) = some p :=
        List.find?_cons_of_pos _ hp
      have hl : List.find? (fun q => q.1 == k)
          ((k, v) :: t.map (fun q => if q.1 == k then (k, v) else q)) = some (k, v) :=
        List.find?_cons_of_pos _ (by simp)
      rw [List.map_cons, h1, hr, hl]
      rfl
    · have h1 : (if p.1 == k then (k, v) else p) = p := if_neg hp
      have hr : List.find? (fun q => q.1 == k) (p :: t) =
          List.find? (fun q => q.1 == k) t :=
        List.find?_cons_of_neg _ (by simpa using hp)
      have hl : List.find? (fun q => q.1 == k)
          (p :: t.map (fun q => if q.1 == k then (k, v) else q)) =
          List.find? (fun q => q.1 == k) (t.map (fun q => if q.1 == k then (k, v) else q)) :=
        List.find?_cons_of_neg _ (by simpa using hp)
      rw [List.map_cons, h1, hr, hl, ih]

theorem pyGet_pyDictSet_self {α : Type} (m : List (String × α)) (k : String) (v : α) :
    pyGet (pyDictSet m k v) k = some v := by
  unfold pyDictSet
  split
  · rename_i hany
    unfold pyGet
    rw [find?_update]
    obtain ⟨p, hp, hpk⟩ := List.any_eq_true.mp hany
    cases hfind : m.find? (fun p => p.1 == k) with
    | none =>
      rw [List.find?_eq_none] at hfind
      exact absurd hpk (by simpa using hfind p hp)
    | some p0 =>
      rfl
  · rename_i hany
    unfold pyGet
    rw [List.find?_append]
    have hnone : m.find? (fun p => p.1 == k) = none := by
      rw [List.find?_eq_none]
      intro p hp
      simp only [Bool.not_eq_true]
      by_contra hc
      exact hany (List.any_eq_true.mpr ⟨p, hp, by simpa using hc⟩)
    rw [hnone]
    simp [List.find?]

/-- One iteration of the inner loop of
`ForecastService.get_forecasts_for_user_resorts`: resolve the typed name,
skip on a miss; fetch the forecast for the hit's data URL (the function
`pages` models the network as data URL ↦ parsed forecast table, `none`
when the page has no forecast table); skip when the result is absent or
empty (`if forecast_data_dicts:`); otherwise store it keyed by the
canonical (directory) resort name. The dict-to-`ForecastData` conversion
is field-for-field, so it is the identity here. -/
def processEntry (available : List (String × List Resort))
    (pages : String → Option ForecastTable)
    (forecasts : List (String × List ForecastPeriod))
    (country resort_name : String) : List (String × List ForecastPeriod) :=
  match get_matching_resort available country resort_name with
  | none => forecasts
  | some resort =>
    match forecast_for_resort (pages resort.data_url) with
    | none => forecasts
    | some fd => if fd.isEmpty then forecasts else pyDictSet forecasts resort.name fd

/-- `ForecastService.get_forecasts_for_user_resorts`: loop over the
watch-list in order (country, then that country's typed names), starting
from the empty dict. -/
def get_forecasts_for_user_resorts (available : List (String × List Resort))
    (pages : String → Option ForecastTable)
    (user_resorts : List (String × List String)) : List (String × List ForecastPeriod) :=
  user_resorts.foldl (fun acc entry =>
    entry.2.foldl (fun acc2 resort_name =>
      processEntry available pages acc2 entry.1 resort_name) acc) []

/-- `k` is the canonical name of some resort of the fetched directory. -/
def canonicalKey (available : List (String × List Resort)) (k : String) : Prop :=
  ∃ country rs r, pyGet available country = some rs ∧ r ∈ rs ∧ r.name = k

/-- Invariant carried through the orchestrator's loops. -/
def goodMap (available : List (String × List Resort))
    (m : List (String × List ForecastPeriod)) : Prop :=
  (keysOf m).Nodup ∧ ∀ x ∈ keysOf m, canonicalKey available x

theorem processEntry_good (available : List (String × List Resort))
    (pages : String → Option ForecastTable)
    (m : List (String × List ForecastPeriod)) (country resort_name : String)
    (h : goodMap available m) :
    goodMap available (processEntry available pages m country resort_name) := by
  unfold processEntry
  split
  · exact h
  · rename_i resort hres
    split
    · exact h
    · rename_i fd hfd
      split
      · exact h
      · constructor
        · exact keysOf_pyDictSet_nodup _ _ _ h.1
        · intro x hx
          rcases keysOf_pyDictSet_mem _ _ _ _ hx with hm | rfl
          · exact h.2 x hm
          · obtain ⟨rs, hrs, hmem⟩ := get_matching_resort_mem _ _ _ _ hres
            exact ⟨country, rs, resort, hrs, hmem, rfl⟩

theorem foldl_processEntry_good (available : List (String × List Resort))
    (pages : String → Option ForecastTable) (country : String) (names : List String) :
    ∀ m, goodMap available m →
      goodMap available (names.foldl (fun acc n =>
        processEntry available pages acc country n) m) := by
  induction names with
  | nil => intro m h; exact h
  | cons n t ih =>
    intro m h
    exact ih _ (processEntry_good available pages m country n h)

theorem get_forecasts_good (available : List (String × List Resort))
    (pages : String → Option ForecastTable) (users : List (String × List String)) :
    goodMap available (get_forecasts_for_user_resorts available pages users) := by
  unfold get_forecasts_for_user_resorts
  have main : ∀ m, goodMap available m →
      goodMap available (users.foldl (fun acc entry =>
        entry.2.foldl (fun acc2 n => processEntry available pages acc2 entry.1 n) acc) m) := by
    induction users with
    | nil => intro m h; exact h
    | cons e t ih =>
      intro m h
      exact ih _ (foldl_processEntry_good available pages e.1 e.2 m h)
  exact main [] ⟨List.nodup_nil, by intro x hx; exact absurd hx (by simp [keysOf])⟩

/-- Concrete directory entry used to exercise the orchestrator. -/
def engelberg : Resort :=
  ⟨"Engelberg", "Switzerland", "/resorts/Engelberg", "/resorts/Engelberg/6day/mid"⟩

/-- Concrete one-country directory used to exercise the orchestrator. -/
def swissDir : List (String × List Resort) := [("Switzerland", [engelberg])]

/-- Concrete scraped forecast table with two time slots. -/
def sampleTable : ForecastTable :=
  ⟨some [⟨some "2026-10-12", 2⟩], some ["AM", "PM"], some ["1", "—"], none, none, none⟩

/-- Concrete network: only Engelberg's data URL serves a forecast table. -/
def samplePages : String → Option ForecastTable := fun u =>
  if u = "/resorts/Engelberg/6day/mid" then some sampleTable else none

/-- C6: in the orchestrator, a watch entry with no directory match is
skipped without error; an entry whose forecast extraction yields an
absent or empty result contributes no key; every key of the output is a
canonical (directory) resort name; and the end-to-end watch-list
`{Switzerland: [Engelberg]}` against a directory holding Engelberg yields
exactly the key `"Engelberg"` with one period per time slot of the
scraped table, while an unmatched entry yields zero keys. -/
theorem C6_orchestrator (available : List (String × List Resort))
    (pages : String → Option ForecastTable)
    (m : List (String × List ForecastPeriod)) (country resort_name : String)
    (users : List (String × List String)) :
    (get_matching_resort available country resort_name = none →
      processEntry available pages m country resort_name = m) ∧
    (∀ r, get_matching_resort available country resort_name = some r →
      (forecast_for_resort (pages r.data_url) = none ∨
        forecast_for_resort (pages r.data_url) = some []) →
      processEntry available pages m country resort_name = m) ∧
    (∀ x ∈ keysOf (get_forecasts_for_user_resorts available pages users),
      canonicalKey available x) ∧
    get_forecasts_for_user_resorts swissDir samplePages [("Switzerland", ["Engelberg"])] =
      [("Engelberg", extractForecast sampleTable)] ∧
    (extractForecast sampleTable).length = 2 ∧
    get_forecasts_for_user_resorts swissDir samplePages [("Switzerland", ["Nowhere"])] = [] := by
  refine ⟨?_, ?_, (get_forecasts_good available pages users).2, by decide, by decide, by decide⟩
  · intro h
    simp only [processEntry, h]
  · intro r hr hor
    simp only [processEntry, hr]
    rcases hor with h | h
    · rw [h]
    · rw [h]
      rfl

theorem C6_orchestrator_witness :
    (get_matching_resort swissDir "Switzerland" "Nowhere" = none →
      processEntry swissDir samplePages [] "Switzerland" "Nowhere" = []) ∧
    (∀ r, get_matching_resort swissDir "Switzerland" "Nowhere" = some r →
      (forecast_for_resort (samplePages r.data_url) = none ∨
        forecast_for_resort (samplePages r.data_url) = some []) →
      processEntry swissDir samplePages [] "Switzerland" "Nowhere" = []) ∧
    (∀ x ∈ keysOf (get_forecasts_for_user_resorts swissDir samplePages
        [("Switzerland", ["Engelberg"])]), canonicalKey swissDir x) ∧
    get_forecasts_for_user_resorts swissDir samplePages [("Switzerland", ["Engelberg"])] =
      [("Engelberg", extractForecast sampleTable)] ∧
    (extractForecast sampleTable).length = 2 ∧
    get_forecasts_for_user_resorts swissDir samplePages [("Switzerland", ["Nowhere"])] = [] :=
  C6_orchestrator swissDir samplePages [] "Switzerland" "Nowhere"
    [("Switzerland", ["Engelberg"])]

/-- Directory with the same canonical name under two countries. -/
def resortXA : Resort := ⟨"X", "A", "uA", "duA"⟩

/-- Directory with the same canonical name under two countries. -/
def resortXB : Resort := ⟨"X", "B", "uB", "duB"⟩

/-- Two-country directory whose two resorts share the name `"X"`. -/
def dupDir : List (String × List Resort) := [("A", [resortXA]), ("B", [resortXB])]

/-- Forecast table served for `resortXA`. -/
def tableA : ForecastTable :=
  ⟨some [⟨some "dayA", 1⟩], some ["AM"], some ["1"], none, none, none⟩

/-- Forecast table served for `resortXB`, observably different. -/
def tableB : ForecastTable :=
  ⟨some [⟨some "dayB", 1⟩], some ["AM"], some ["2"], none, none, none⟩

/-- Concrete network serving the two data URLs distinct tables. -/
def dupPages : String → Option ForecastTable := fun u =>
  if u = "duA" then some tableA else if u = "duB" then some tableB else none

/-- C10 (implicit): output keys are always unique; storing under an
existing key overwrites its value; concretely, two watch entries that
resolve to distinct resorts sharing the canonical name `"X"` leave exactly
one `"X"` entry holding the forecast of the entry processed last, although
the two fetched forecasts differ. -/
theorem C10_duplicate_names_last_wins (available : List (String × List Resort))
    (pages : String → Option ForecastTable) (users : List (String × List String))
    (α : Type) (m : List (String × α)) (k : String) (v : α) :
    (keysOf (get_forecasts_for_user_resorts available pages users)).Nodup ∧
    pyGet (pyDictSet m k v) k = some v ∧
    get_forecasts_for_user_resorts dupDir dupPages [("A", ["X"]), ("B", ["X"])] =
      [("X", extractForecast tableB)] ∧
    extractForecast tableA ≠ extractForecast tableB :=
  ⟨(get_forecasts_good available pages users).1, pyGet_pyDictSet_self m k v,
    by decide, by decide⟩

/-- The `div.name` cell of a digest row: its stripped text and, when the
cell holds an `<a>` with an `href`, that attribute value. `anchorHref =
none` covers both no `<a>` child (then `resort_a_href['href']` is
`None['href']`, a TypeError) and an `<a>` without `href` (a KeyError);
either way the Python lookup raises. -/
structure NameCell where
  text : String
  anchorHref : Option String
deriving Repr, DecidableEq

/-- A `tr.digest-row` of a directory page: its `data-url` attribute and
its `div.name` cell, each possibly absent. -/
structure DigestRow where
  data_url : Option String
  name_cell : Option NameCell
deriving Repr, DecidableEq

/-- The dict appended per kept row by `_extract_resorts_from_page`:
`{'name', 'data_url', 'url'}`, all three always present. -/
structure ResortListing where
  name : String
  data_url : String
  url : String
deriving Repr, DecidableEq

/-- `SnowForecast._extract_resorts_from_page`: keep a row only when its
name cell is present and its `data-url` is a non-empty string (Python
truthiness); then read the name cell's anchor `href`, which RAISES when
the anchor or its `href` is missing — modelled as `Except.error ()`. -/
def extractRowsFromPage (rows : List DigestRow) : Except Unit (List ResortListing) :=
  rows.foldlM (fun acc row =>
    match row.name_cell, row.data_url with
    | some cell, some u =>
      if u = "" then .ok acc
      else
        match cell.anchorHref with
        | some href => .ok (acc ++ [⟨cell.text, u, href⟩])
        | none => .error ()
    | _, _ => .ok acc) []

/-- The listing a single row contributes when the extraction survives it. -/
def rowListing (row : DigestRow) : Option ResortListing :=
  match row.name_cell, row.data_url with
  | some cell, some u =>
    if u = "" then none
    else cell.anchorHref.map (fun href => ⟨cell.text, u, href⟩)
  | _, _ => none

/-- A row the extraction survives: if it is selected (name cell present,
non-empty `data-url`) its name cell must supply an anchor `href`. -/
def rowSafeB (row : DigestRow) : Bool :=
  match row.name_cell, row.data_url with
  | some cell, some u => if u = "" then true else cell.anchorHref.isSome
  | _, _ => true

theorem except_bind_ok {ε α β : Type} (a : α) (f : α → Except ε β) :
    ((Except.ok a : Except ε α) >>= f) = f a := rfl

theorem extractRowsFromPage_go (rows : List DigestRow) (hsafe : rows.all rowSafeB = true) :
    ∀ acc : List ResortListing,
      (rows.foldlM (fun acc row =>
        match row.name_cell, row.data_url with
        | some cell, some u =>
          if u = "" then .ok acc
          else
            match cell.anchorHref with
            | some href => .ok (acc ++ [⟨cell.text, u, href⟩])
            | none => .error ()
        | _, _ => .ok acc) acc : Except Unit (List ResortListing)) =
      .ok (acc ++ rows.filterMap rowListing) := by
  induction rows with
  | nil =>
    intro acc
    simp only [List.foldlM_nil, List.filterMap_nil, List.append_nil]
    rfl
  | cons r t ih =>
    have hrt : rowSafeB r = true ∧ t.all rowSafeB = true := by
      simpa only [List.all_cons, Bool.and_eq_true] using hsafe
    intro acc
    rw [List.foldlM_cons]
    rcases hc : r.name_cell with _ | cell
    · have hl : rowListing r = none := by simp [rowListing, hc]
      have hfm : List.filterMap rowListing (r :: t) = List.filterMap rowListing t := by
        simp [List.filterMap_cons, hl]
      rw [hfm]
      simp only [hc]
      exact ih hrt.2 acc
    · rcases hu : r.data_url with _ | u
      · have hl : rowListing r = none := by simp [rowListing, hc, hu]
        have hfm : List.filterMap rowListing (r :: t) = List.filterMap rowListing t := by
          simp [List.filterMap_cons, hl]
        rw [hfm]
        simp only [hc, hu]
        exact ih hrt.2 acc
      · by_cases he : u = ""
        · have hl : rowListing r = none := by simp [rowListing, hc, hu, he]
          have hfm : List.filterMap rowListing (r :: t) = List.filterMap rowListing t := by
            simp [List.filterMap_cons, hl]
          rw [hfm]
          simp only [hc, hu, he, if_pos rfl]
          exact ih hrt.2 acc
        · have hsome : cell.anchorHref.isSome = true := by
            have hx := hrt.1
            simp only [rowSafeB, hc, hu, if_neg he] at hx
            exact hx
          obtain ⟨href, hhref⟩ := Option.isSome_iff_exists.mp hsome
          have hl : rowListing r = some ⟨cell.text, u, href⟩ := by
            simp [rowListing, hc, hu, he, hhref]
          have hfm : List.filterMap rowListing (r :: t) =
              ⟨cell.text, u, href⟩ :: List.filterMap rowListing t := by
            simp [List.filterMap_cons, hl]
          rw [hfm]
          simp only [hc, hu, if_neg he, hhref]
          have hrec := ih hrt.2 (acc ++ [⟨cell.text, u, href⟩])
          rw [List.append_assoc] at hrec
          exact hrec

/-- C7, as stated, is false: extraction is not total. A digest row with a
non-empty `data-url` and a name cell that lacks an anchor `href` passes
the `if name_cell and resort_url` guard and then evaluates
`name_cell.find('a')['href']`, which raises (`None['href']`). -/
theorem C7_counterexample :
    ¬ ∀ rows : List DigestRow, ∃ l, extractRowsFromPage rows = .ok l := by
  intro h
  obtain ⟨l, hl⟩ := h [⟨some "u", some ⟨"R", none⟩⟩]
  exact Except.noConfusion hl

/-- C7 (amended): rows lacking the `data-url` attribute or the name
element are silently skipped and contribute nothing; on a page whose kept
rows all supply an anchor `href`, the extraction succeeds and returns, in
row order, one listing per kept row with all three of name, data URL and
canonical URL filled from that row. (The amendment: a row that passes the
guard but whose name element lacks an anchor with an `href` makes the
extraction raise rather than being skipped, see the counterexample.) -/
theorem C7_amended_row_skipping (rows : List DigestRow)
    (hsafe : rows.all rowSafeB = true) :
    extractRowsFromPage rows = .ok (rows.filterMap rowListing) ∧
    (∀ row : DigestRow, row.name_cell = none ∨ row.data_url = none →
      rowListing row = none) ∧
    (∀ row : DigestRow, ∀ cell : NameCell, ∀ u href : String,
      row.name_cell = some cell → row.data_url = some u → u ≠ "" →
      cell.anchorHref = some href →
      rowListing row = some ⟨cell.text, u, href⟩) := by
  refine ⟨extractRowsFromPage_go rows hsafe [], ?_, ?_⟩
  · intro row h
    rcases h with h | h
    · simp [rowListing, h]
    · simp [rowListing, h]
  · intro row cell u href h1 h2 h3 h4
    simp [rowListing, h1, h2, h3, h4]

theorem C7_amended_row_skipping_witness :
    extractRowsFromPage
        [⟨some "du1", some ⟨"R", some "/r"⟩⟩, ⟨none, some ⟨"S", some "/s"⟩⟩,
         ⟨some "du3", none⟩, ⟨some "", some ⟨"T", some "/t"⟩⟩] =
      .ok ([⟨some "du1", some ⟨"R", some "/r"⟩⟩, ⟨none, some ⟨"S", some "/s"⟩⟩,
         ⟨some "du3", none⟩, ⟨some "", some ⟨"T", some "/t"⟩⟩].filterMap rowListing) ∧
    (∀ row : DigestRow, row.name_cell = none ∨ row.data_url = none →
      rowListing row = none) ∧
    (∀ row : DigestRow, ∀ cell : NameCell, ∀ u href : String,
      row.name_cell = some cell → row.data_url = some u → u ≠ "" →
      cell.anchorHref = some href →
      rowListing row = some ⟨cell.text, u, href⟩) :=
  C7_amended_row_skipping
    [⟨some "du1", some ⟨"R", some "/r"⟩⟩, ⟨none, some ⟨"S", some "/s"⟩⟩,
     ⟨some "du3", none⟩, ⟨some "", some ⟨"T", some "/t"⟩⟩] (by decide)

/-- A parsed country directory page: its digest rows and, when the
`div#ctry_tabs` container is present, the `href` of each of its anchors
in document order. -/
structure CountryPage where
  basePage : List DigestRow
  tabs : Option (List String)

/-- `SnowForecast.get_resorts_with_tabs`: extract the base page's rows,
then, when the tab container is present, fetch every tab link in order
(the function `fetchTab` models the network as tab URL ↦ parsed page
rows) and append the rows the identical routine extracts from it. -/
def get_resorts_with_tabs (fetchTab : String → List DigestRow) (page : CountryPage) :
    Except Unit (List ResortListing) := do
  let resorts ← extractRowsFromPage page.basePage
  match page.tabs with
  | none => pure resorts
  | some tab_urls =>
    tab_urls.foldlM (fun acc tab_url => do
      let r ← extractRowsFromPage (fetchTab tab_url)
      pure (acc ++ r)) resorts

theorem tabs_foldlM (fetchTab : String → List DigestRow) (g : String → List ResortListing)
    (urls : List String)
    (h : ∀ u ∈ urls, extractRowsFromPage (fetchTab u) = .ok (g u)) :
    ∀ acc : List ResortListing,
      (urls.foldlM (fun acc tab_url => do
        let r ← extractRowsFromPage (fetchTab tab_url)
        pure (acc ++ r)) acc : Except Unit (List ResortListing)) =
      .ok (acc ++ (urls.map g).flatten) := by
  induction urls with
  | nil =>
    intro acc
    simp only [List.foldlM_nil, List.map_nil, List.flatten_nil, List.append_nil]
    rfl
  | cons u t ih =>
    intro acc
    rw [List.foldlM_cons]
    have hu : extractRowsFromPage (fetchTab u) = .ok (g u) := h u (List.mem_cons_self u t)
    have ht : ∀ x ∈ t, extractRowsFromPage (fetchTab x) = .ok (g x) := by
      intro x hx
      exact h x (List.mem_cons_of_mem u hx)
    rw [hu, except_bind_ok]
    have hrec := ih ht (acc ++ g u)
    rw [List.append_assoc] at hrec
    rw [show ((List.map g (u :: t)).flatten) = g u ++ (List.map g t).flatten by
      simp [List.map_cons, List.flatten]]
    exact hrec

/-- C8: the country Fetcher's result is the base page's extracted rows
followed by, for each tab link in document order, the rows the identical
per-page routine extracts from that tab's page, concatenated in that
order with no de-duplication; a page with no tab container yields exactly
the base page's rows. -/
theorem C8_tab_concatenation (fetchTab : String → List DigestRow) (page : CountryPage)
    (b : List ResortListing) (g : String → List ResortListing)
    (hb : extractRowsFromPage page.basePage = .ok b)
    (htabs : ∀ u ∈ page.tabs.getD [], extractRowsFromPage (fetchTab u) = .ok (g u)) :
    get_resorts_with_tabs fetchTab page =
      .ok (b ++ ((page.tabs.getD []).map g).flatten) ∧
    (page.tabs = none →
      get_resorts_with_tabs fetchTab page = extractRowsFromPage page.basePage) := by
  constructor
  · unfold get_resorts_with_tabs
    rw [hb, except_bind_ok]
    cases htab : page.tabs with
    | none =>
      simp only [Option.getD_none, List.map_nil, List.flatten_nil, List.append_nil]
      rfl
    | some urls =>
      rw [htab] at htabs
      exact tabs_foldlM fetchTab g urls (fun u hu => htabs u hu) b
  · intro hn
    unfold get_resorts_with_tabs
    rw [hb, except_bind_ok, hn]
    rfl

theorem C8_tab_concatenation_witness :
    get_resorts_with_tabs (fun _ => [⟨some "du2", some ⟨"S", some "/s"⟩⟩])
        ⟨[⟨some "du1", some ⟨"R", some "/r"⟩⟩], some ["t1"]⟩ =
      .ok ([⟨"R", "du1", "/r"⟩] ++
        (((some ["t1"] : Option (List String)).getD []).map
          (fun _ => [⟨"S", "du2", "/s"⟩])).flatten) ∧
    ((some ["t1"] : Option (List String)) = none →
      get_resorts_with_tabs (fun _ => [⟨some "du2", some ⟨"S", some "/s"⟩⟩])
        ⟨[⟨some "du1", some ⟨"R", some "/r"⟩⟩], some ["t1"]⟩ =
      extractRowsFromPage [⟨some "du1", some ⟨"R", some "/r"⟩⟩]) :=
  C8_tab_concatenation (fun _ => [⟨some "du2", some ⟨"S", some "/s"⟩⟩])
    ⟨[⟨some "du1", some ⟨"R", some "/r"⟩⟩], some ["t1"]⟩
    [⟨"R", "du1", "/r"⟩] (fun _ => [⟨"S", "du2", "/s"⟩]) rfl (fun _ _ => rfl)

/-- Scan-and-replace core of Python `str.replace` for a non-empty
pattern: walk the string left to right; at each position where the
pattern matches, emit the replacement and skip the pattern, else copy one
character. The fuel argument only bounds the recursion; it is called with
the string's length, which the scan never exhausts (each step consumes at
least one character). -/
def replaceGo (old new : List Char) : Nat → List Char → List Char
  | _, [] => []
  | 0, s => s
  | fuel + 1, c :: rest =>
    if headMatch old (c :: rest) ∧ old ≠ [] then
      new ++ replaceGo old new fuel ((c :: rest).drop old.length)
    else c :: replaceGo old new fuel rest

/-- Python `s.replace(old, new)` (for the non-empty pattern `"cm"` the
code uses). -/
def pyReplace (s old new : String) : String := ⟨replaceGo old.data new.data s.data.length s.data⟩

/-- Numeric value of a digit string, most significant first. -/
def digitsToNat (ds : List Char) : Nat := ds.foldl (fun n c => 10 * n + (c.toNat - 48)) 0

/-- A non-empty all-digit string. -/
def isDigits (ds : List Char) : Bool := !ds.isEmpty && ds.all Char.isDigit

/-- Python `float(s)` restricted to unsigned decimal literals (`digits`
or `digits.digits`), exact as a rational; any other shape — including
strings such as `"5-100"` that the replacement below can produce —
raises `ValueError`, modelled as `none`. This fragment is faithful on
every snow string the aggregation evaluates here. -/
def pyFloat (s : String) : Option ℚ :=
  let intPart := s.data.takeWhile (fun c => c ≠ '.')
  match s.data.dropWhile (fun c => c ≠ '.') with
  | [] => if isDigits intPart then some ((digitsToNat intPart : ℚ)) else none
  | _ :: frac =>
    if isDigits intPart && isDigits frac then
      some ((digitsToNat intPart : ℚ) + (digitsToNat frac : ℚ) / (10 : ℚ) ^ frac.length)
    else none

/-- The `total_snow_cm` field computed by `create_snow_forecast_document`
in `forecast-elastic.py`:
`sum(float(point['snow'].replace('cm', '0')) for point in forecast_data if point.get('snow'))`.
Periods with a `None` or empty snow value are filtered out (Python
truthiness); a parse failure raises, modelled as `none`. -/
def total_snow_cm (forecast_data : List ForecastPeriod) : Option ℚ :=
  forecast_data.foldlM (fun acc p =>
    match p.snow with
    | some s =>
      if s = "" then some acc
      else (pyFloat (pyReplace s "cm" "0")).map (fun x => acc + x)
    | none => some acc) 0

/-- C9 is the spec's intent but the code has a slip: the aggregation runs
`point['snow'].replace('cm', '0')`, REPLACING the unit suffix by the digit
zero instead of stripping it, so the single period with snow `"5cm"`
totals `50`, not the `5` the claim (and the field's own name
`total_snow_cm`, "Sum of all snow forecasts") requires. -/
theorem C9_total_snow_replace_bug :
    total_snow_cm [⟨none, "AM", some "5cm", none, none, none⟩] = some 50 ∧
    pyReplace "5cm" "cm" "0" = "50" ∧
    (50 : ℚ) ≠ 5 := by
  refine ⟨?_, by decide, by norm_num⟩
  show some ((0 : ℚ) + ((50 : Nat) : ℚ)) = some 50
  norm_num
